import Mathlib

/-!
Shallow embedding of the driv vehicle-currency engine.

The embedded code lives in `src/sheets_manager.py` (`calculate_3_month_distance`,
`calculate_expiry_date`, `get_all_personnel_status`) and `src/app.py`
(`mileage_team_overview`, the per-user statistics loop of `get_all_fitness_data`).

Modelling conventions:
* Calendar dates are integers (days); `datetime.strptime(s, "%Y-%m-%d")` of a record
  field is modelled as an `Option Int` (`none` when parsing raises `ValueError`),
  and an evaluation instant `datetime.now()` is a rational number of days so that
  a date-with-time comparison such as `record_date >= now - timedelta(days=90)`
  becomes `(d : ℚ) ≥ now - 90`.
* `float(...)` of a sheet cell is modelled as an `Option ℚ` (`none` when the call
  raises `ValueError`/`TypeError`); a missing cell reaches `float` as the default
  `0` and is therefore `some 0`.
* Python's stable `list.sort(key=..., reverse=True)` is modelled by Mathlib's
  stable `List.insertionSort` with the non-strict descending relation on the
  sort key, which produces the identical ordering on parseable keys.
-/

namespace Driv

/-- One row of the `Mileage_Logs` worksheet as consumed by the currency engine.
The `dateOfDrive` and `distanceDriven` fields hold the results of parsing the
raw `Date_of_Drive` and `Distance_Driven_KM` cells (`none` = unparseable). -/
structure MileageRecord where
  username : String
  dateOfDrive : Option Int
  distanceDriven : Option ℚ
  vehicleType : String
deriving DecidableEq, Repr

/-- Filter used by both engine functions:
`r.get('Username') == username and r.get('Vehicle_Type') == vehicle_type`.
The `vehicle_type` argument is an `Option String` because the Python caller can
pass `None`; a `none` argument compares unequal to every record's string cell. -/
def matchesUser (username : String) (vehicle_type : Option String)
    (r : MileageRecord) : Bool :=
  r.username == username && some r.vehicleType == vehicle_type

/-- Contribution of one already-filtered record to the 3-month total in
`calculate_3_month_distance`: `strptime` failure skips the record, an in-window
record contributes `float(record.get('Distance_Driven_KM', 0))` with a
`ValueError`/`TypeError` in that call also skipping the record (contribution 0). -/
def recordWindowContribution (now : ℚ) (r : MileageRecord) : ℚ :=
  match r.dateOfDrive with
  | none => 0
  | some d => if now - 90 ≤ (d : ℚ) then r.distanceDriven.getD 0 else 0

/-- Embedding of `SheetsManager.calculate_3_month_distance`
(`src/sheets_manager.py` lines 382-425): filter to the user and vehicle type,
return `0.0` for an empty filtered set, otherwise sum the in-window distances,
silently skipping records whose date or distance fails to parse. -/
def calculate_3_month_distance (records : List MileageRecord) (username : String)
    (vehicle_type : Option String) (now : ℚ) : ℚ :=
  let user_records := records.filter (matchesUser username vehicle_type)
  if user_records.isEmpty then 0
  else (user_records.map (recordWindowContribution now)).sum

/-- Currency predicate displayed by the app (`src/app.py`: a user is Current when
2.0 KM or more was driven in the last 3 months). -/
def is_current (window_distance : ℚ) : Bool :=
  decide (2 ≤ window_distance)

/-- Sort comparison used by `calculate_expiry_date`'s
`user_records.sort(key=lambda x: x.get('Date_of_Drive', ''), reverse=True)`:
`dateGeB a b` says the parsed date of `a` is at least that of `b`, with an
unparseable/missing date below every real date. -/
def dateGeB (a b : MileageRecord) : Bool :=
  match a.dateOfDrive, b.dateOfDrive with
  | _, none => true
  | none, some _ => false
  | some da, some db => decide (db ≤ da)

/-- Non-strict descending comparison on the sort key; with a stable sort this
reproduces Python's stable `sort(..., reverse=True)`. -/
def byDateDesc (a b : MileageRecord) : Prop := dateGeB a b = true

instance : DecidableRel byDateDesc :=
  fun a b => inferInstanceAs (Decidable (dateGeB a b = true))

instance : IsTotal MileageRecord byDateDesc := by
  constructor
  intro a b
  obtain ⟨ua, da, qa, va⟩ := a
  obtain ⟨ub, db, qb, vb⟩ := b
  unfold byDateDesc dateGeB
  rcases da with _ | da <;> rcases db with _ | db <;> simp
  exact le_total db da

instance : IsTrans MileageRecord byDateDesc := by
  constructor
  intro a b c hab hbc
  obtain ⟨ua, da, qa, va⟩ := a
  obtain ⟨ub, db, qb, vb⟩ := b
  obtain ⟨uc, dc, qc, vc⟩ := c
  unfold byDateDesc dateGeB at hab hbc ⊢
  rcases da with _ | da <;> rcases db with _ | db <;> rcases dc with _ | dc <;>
    simp only [decide_eq_true_eq] at hab hbc ⊢ <;> first | trivial | omega

/-- Stable descending-by-date sort of the filtered records. -/
def sortByDateDesc (l : List MileageRecord) : List MileageRecord :=
  List.insertionSort byDateDesc l

/-- The accumulation loop of `calculate_expiry_date`: walk the sorted records,
`cumulative_distance += distance` (a `float` conversion failure skips the whole
record), and as soon as `cumulative_distance >= 2.0` anchor on the record's
parsed date; if that parse raises, the record is skipped but the accumulated
distance is kept. -/
def findAnchor : ℚ → List MileageRecord → Option Int
  | _, [] => none
  | cumulative, r :: rs =>
    match r.distanceDriven with
    | none => findAnchor cumulative rs
    | some dist =>
      if 2 ≤ cumulative + dist then
        match r.dateOfDrive with
        | some d => some d
        | none => findAnchor (cumulative + dist) rs
      else findAnchor (cumulative + dist) rs

/-- Embedding of `SheetsManager.calculate_expiry_date`
(`src/sheets_manager.py` lines 428-482): filter to the user and vehicle type,
return the sentinel (`"N/A"`, modelled as `none`) for an empty filtered set,
otherwise sort by date descending, find the anchor of the cumulative walk, and
return its date plus 90 days (`none` again when no anchor exists). -/
def calculate_expiry_date (records : List MileageRecord) (username : String)
    (vehicle_type : Option String) : Option Int :=
  let user_records := records.filter (matchesUser username vehicle_type)
  if user_records.isEmpty then none
  else
    match findAnchor 0 (sortByDateDesc user_records) with
    | some d => some (d + 90)
    | none => none

/-- Sum of the parsed distances of a list of records (`none` parses count 0). -/
def distSum (l : List MileageRecord) : ℚ :=
  (l.map (fun r => r.distanceDriven.getD 0)).sum

/-- Cumulative distance after consuming the first `i + 1` records of `l`. -/
def cumAt (l : List MileageRecord) (i : Nat) : ℚ :=
  distSum (l.take (i + 1))

/-- Well-formedness of a record as the engine claims assume it: both the date
and the distance cells parse. -/
def wfRec (r : MileageRecord) : Prop :=
  r.dateOfDrive.isSome = true ∧ r.distanceDriven.isSome = true

instance : DecidablePred wfRec := fun r =>
  inferInstanceAs (Decidable (r.dateOfDrive.isSome = true ∧ r.distanceDriven.isSome = true))

/-- Record has a parseable date inside the trailing 90-day window ending at `now`. -/
def inWindow (now : ℚ) (r : MileageRecord) : Bool :=
  match r.dateOfDrive with
  | none => false
  | some d => decide (now - 90 ≤ (d : ℚ))

/-- TTL of the `@st.cache_data(ttl=1800)` decorator on
`calculate_3_month_distance`, expressed in days (1800 seconds). -/
def cacheTTLdays : ℚ := 1800 / 86400

/-- One entry of the `st.cache_data` cache sitting in front of
`calculate_3_month_distance`: the decorator keys on the call arguments
(`_self` is excluded by the leading underscore) and remembers the returned
value together with the instant it was computed. -/
structure DistanceCacheEntry where
  username : String
  vehicle_type : Option String
  value : ℚ
  computedAt : ℚ
deriving DecidableEq, Repr

/-- Look up the newest cache entry for the given key. -/
def lookupCache (cache : List DistanceCacheEntry) (username : String)
    (vehicle_type : Option String) : Option DistanceCacheEntry :=
  cache.find? (fun e => e.username == username && e.vehicle_type == vehicle_type)

/-- Semantics of a call to the `st.cache_data(ttl=1800)`-decorated
`calculate_3_month_distance` at clock instant `now`: a cached value younger
than the TTL is served as-is (its embedded `datetime.now()` was the earlier
instant); otherwise the function body runs with the current clock and the
result is stored. -/
def cachedDistanceCall (records : List MileageRecord) (cache : List DistanceCacheEntry)
    (username : String) (vehicle_type : Option String) (now : ℚ) :
    ℚ × List DistanceCacheEntry :=
  match lookupCache cache username vehicle_type with
  | some e =>
    if now - e.computedAt < cacheTTLdays then (e.value, cache)
    else
      let v := calculate_3_month_distance records username vehicle_type now
      (v, ⟨username, vehicle_type, v, now⟩ :: cache)
  | none =>
    let v := calculate_3_month_distance records username vehicle_type now
    (v, ⟨username, vehicle_type, v, now⟩ :: cache)

/-- One row of the personnel table consumed by `mileage_team_overview`
(`src/app.py`): `currency_status` is the raw `Currency Maintained` cell and
`days_to_expiry` the result of `pd.to_numeric(..., errors='coerce')` on the
`Days to Expiry` cell (`none` = `NaN`, every comparison with it is false). -/
structure PersonnelStatus where
  currency_status : String
  days_to_expiry : Option ℚ
deriving DecidableEq, Repr

/-- Python's `str.upper()`: uppercase every character. Mathematically identical
to `String.toUpper`, but written through the character list so that proofs can
evaluate it on literals. -/
def strUpper (s : String) : String :=
  String.mk (s.data.map Char.toUpper)

/-- Embedding of the expiring-soon row filter of `mileage_team_overview`
(`src/app.py` lines 1918-1922):
`(df['currency_status'].str.upper() == 'YES') & (df['days_to_expiry_num'] <= 14)`. -/
def isExpiringSoonRow (s : PersonnelStatus) : Bool :=
  strUpper s.currency_status == "YES" &&
    (match s.days_to_expiry with
     | some d => decide (d ≤ 14)
     | none => false)

/-- Embedding of `expiring_soon = len(df[...])` in `mileage_team_overview`. -/
def expiring_soon_count (statuses : List PersonnelStatus) : Nat :=
  (statuses.filter isExpiringSoonRow).length

/-- Modelled from the spec (section 4.2 and testable property 7): a status
counts as expiring soon exactly when `is_current AND 0 <= days_to_expiry <= 14`,
with a lower bound excluding already-expired statuses. -/
def spec_expiring_soon_row (s : PersonnelStatus) : Bool :=
  strUpper s.currency_status == "YES" &&
    (match s.days_to_expiry with
     | some d => decide (0 ≤ d ∧ d ≤ 14)
     | none => false)

/-- One row of the fitness worksheet as consumed by the per-user statistics
loop of `get_all_fitness_data` (`src/app.py` lines 2500-2560): `date` is the
parse of the `Date` cell (`none` = empty or unparseable, either way the record
is skipped) and `weight` the result of `float(workout.get('Weight', 0) or 0)`
(`none` = the conversion raises). -/
structure WorkoutRecord where
  date : Option Int
  weight : Option ℚ
deriving DecidableEq, Repr

/-- Accumulator of the per-user loop in `get_all_fitness_data`. `weightVar`
models the Python local variable `weight`, which survives from one loop
iteration to the next (`none` = not yet bound; reading it then raises
`NameError`, aborting the rest of that iteration). -/
structure FitnessState where
  recent_workouts : Nat
  max_weight_lifted : ℚ
  recent_prs : Nat
  weightVar : Option ℚ
deriving DecidableEq, Repr

/-- Initial accumulator: `recent_workouts = 0`, `max_weight_lifted = 0`,
`recent_prs = 0`, `weight` unbound. -/
def initFitnessState : FitnessState := ⟨0, 0, 0, none⟩

/-- One iteration of the per-user workout loop of `get_all_fitness_data`:
records outside the trailing 30-day window are ignored for the statistics;
inside the window the session counter increments, a successfully parsed
positive weight updates the running maximum, and a personal record is counted
when the Python local `weight` exceeds 95 percent of the updated maximum
(an unbound `weight` raises `NameError` and aborts the iteration, keeping the
updates already made). -/
def fitnessStep (now : ℚ) (s : FitnessState) (w : WorkoutRecord) : FitnessState :=
  match w.date with
  | none => s
  | some d =>
    if now - 30 ≤ (d : ℚ) then
      let s1 : FitnessState :=
        { s with recent_workouts := s.recent_workouts + 1 }
      let s2 : FitnessState :=
        match w.weight with
        | some q =>
          if 0 < q then
            { s1 with weightVar := some q,
                      max_weight_lifted := max s1.max_weight_lifted q }
          else { s1 with weightVar := some q }
        | none => s1
      match s2.weightVar with
      | none => s2
      | some wv =>
        if s2.max_weight_lifted * (19/20) < wv then
          { s2 with recent_prs := s2.recent_prs + 1 }
        else s2
    else s

/-- Embedding of the per-user statistics loop of `get_all_fitness_data`:
fold the workouts, in sheet order, through `fitnessStep`. -/
def fitnessStats (workouts : List WorkoutRecord) (now : ℚ) : FitnessState :=
  workouts.foldl (fitnessStep now) initFitnessState

/-- Weights of the records inside the trailing 30-day window whose weight cell
parses to a positive value, in walk order. -/
def windowedPosWeights (now : ℚ) (l : List WorkoutRecord) : List ℚ :=
  l.filterMap (fun w =>
    match w.date, w.weight with
    | some d, some q => if now - 30 ≤ (d : ℚ) ∧ 0 < q then some q else none
    | _, _ => none)

/-- Personal-record count of the windowed walk, carrying only the running
maximum `m` of the positive windowed weights: a windowed record with parsed
weight `q` is flagged when `q` exceeds 95 percent of the updated maximum. -/
def prCountAux (now : ℚ) : ℚ → List WorkoutRecord → Nat
  | _, [] => 0
  | m, w :: ws =>
    match w.date with
    | none => prCountAux now m ws
    | some d =>
      if now - 30 ≤ (d : ℚ) then
        match w.weight with
        | some q =>
          let m2 := if 0 < q then max m q else m
          (if m2 * (19/20) < q then 1 else 0) + prCountAux now m2 ws
        | none => prCountAux now m ws
      else prCountAux now m ws

/-- Modelled from the spec (section 4.3): `max_weight_lifted` as the running
maximum of the `weight` field across all-time records, not windowed. -/
def spec_max_weight_all_time (l : List WorkoutRecord) : ℚ :=
  l.foldl (fun m w => max m (w.weight.getD 0)) 0

/-- Modelled from the spec (section 4.3): every record, walked in order, is
flagged as a personal record when its weight is within 5 percent of the
all-time running maximum at that record, and all flagged records are counted. -/
def spec_pr_count_all_time : ℚ → List WorkoutRecord → Nat
  | _, [] => 0
  | m, w :: ws =>
    let q := w.weight.getD 0
    let m2 := max m q
    (if m2 * (19/20) ≤ q then 1 else 0) + spec_pr_count_all_time m2 ws

/-- Modelled from the spec, alternative reading of the claim: records are
flagged against the all-time running maximum but only flagged records inside
the trailing 30-day window are counted. -/
def spec_pr_count_recent (now : ℚ) : ℚ → List WorkoutRecord → Nat
  | _, [] => 0
  | m, w :: ws =>
    let q := w.weight.getD 0
    let m2 := max m q
    let flagged : Bool :=
      match w.date with
      | some d => decide (now - 30 ≤ (d : ℚ)) && decide (m2 * (19/20) ≤ q)
      | none => false
    (if flagged then 1 else 0) + spec_pr_count_recent now m2 ws

end Driv

namespace Driv

lemma sum_contribution_eq (now : ℚ) (l : List MileageRecord) :
    (l.map (recordWindowContribution now)).sum =
      ((l.filter (inWindow now)).map (fun r => r.distanceDriven.getD 0)).sum := by
  induction l with
  | nil => simp
  | cons r t ih =>
    rcases hd : r.dateOfDrive with _ | d
    · simp [recordWindowContribution, inWindow, hd, ih]
    · by_cases hw : now - 90 ≤ (d : ℚ)
      · simp [recordWindowContribution, inWindow, hd, hw, ih]
      · simp [recordWindowContribution, inWindow, hd, hw, ih]

lemma sum_getD_filter_isSome (l : List MileageRecord) :
    ((l.filter (fun r => r.distanceDriven.isSome)).map
        (fun r => r.distanceDriven.getD 0)).sum =
      (l.map (fun r => r.distanceDriven.getD 0)).sum := by
  induction l with
  | nil => simp
  | cons r t ih =>
    rcases hq : r.distanceDriven with _ | q
    · simp [hq, ih]
    · simp [hq, ih]

lemma calc3_eq_filtered_sum (records : List MileageRecord) (username : String)
    (vehicle_type : Option String) (now : ℚ) :
    calculate_3_month_distance records username vehicle_type now =
      (((records.filter (matchesUser username vehicle_type)).filter (inWindow now)).map
        (fun r => r.distanceDriven.getD 0)).sum := by
  unfold calculate_3_month_distance
  by_cases h : (records.filter (matchesUser username vehicle_type)).isEmpty
  · rw [List.isEmpty_iff] at h
    simp [h]
  · simp only [h, if_false]
    exact sum_contribution_eq now _

/-- C2: for every collection of drive records, every vehicle type and every
evaluation instant `now`, `calculate_3_month_distance` equals the sum of
`distance` over exactly the records matching the vehicle type whose date is at
least `now - 90` days (an empty filtered set giving the ordinary result 0);
moreover a single 2.0-distance record dated 89 days before `now` is inside the
window while the same record dated 91 days before `now` yields 0. -/
theorem calculate_3_month_distance_spec :
    (∀ (records : List MileageRecord) (username vt : String) (now : ℚ),
      calculate_3_month_distance records username (some vt) now =
        (((records.filter (matchesUser username (some vt))).filter (inWindow now)).map
          (fun r => r.distanceDriven.getD 0)).sum) ∧
    (∀ (u v : String) (n : ℤ),
      calculate_3_month_distance [⟨u, some (n - 89), some 2, v⟩] u (some v) (n : ℚ) = 2) ∧
    (∀ (u v : String) (n : ℤ),
      calculate_3_month_distance [⟨u, some (n - 91), some 2, v⟩] u (some v) (n : ℚ) = 0) := by
  refine ⟨fun records username vt now => calc3_eq_filtered_sum records username (some vt) now,
    fun u v n => ?_, fun u v n => ?_⟩
  · simp [calculate_3_month_distance, matchesUser, recordWindowContribution]
    linarith
  · simp [calculate_3_month_distance, matchesUser, recordWindowContribution]
    linarith

/-- C10: the trailing-window computation is total on arbitrary record lists
(the embedding is a total function; every exception path of the Python code is
a silent skip), and its result equals the sum of distances over exactly the
well-formed records that match the vehicle type and fall inside the window —
records with unparseable dates or distances contribute nothing. -/
theorem calculate_3_month_distance_total (records : List MileageRecord)
    (username : String) (vehicle_type : Option String) (now : ℚ) :
    calculate_3_month_distance records username vehicle_type now =
      ((((records.filter (matchesUser username vehicle_type)).filter (inWindow now)).filter
          (fun r => r.distanceDriven.isSome)).map (fun r => r.distanceDriven.getD 0)).sum := by
  rw [calc3_eq_filtered_sum records username vehicle_type now,
    ← sum_getD_filter_isSome]

lemma matchesUser_none (username : String) (r : MileageRecord) :
    matchesUser username none r = false := by
  simp [matchesUser]

lemma filter_matchesUser_none (records : List MileageRecord) (username : String) :
    records.filter (matchesUser username none) = [] :=
  List.filter_eq_nil_iff.mpr (fun r _ => by simp [matchesUser_none])

/-- C7 (amended): a null (`None`) vehicle type is not rejected with a
precondition error — it matches no record, so both engine functions silently
return their no-data defaults (`0.0` and the `"N/A"` sentinel); being total
functions of valid records, they never fail. -/
theorem null_vehicle_type_silent_default (records : List MileageRecord)
    (username : String) (now : ℚ) :
    calculate_3_month_distance records username none now = 0 ∧
    calculate_expiry_date records username none = none := by
  constructor
  · unfold calculate_3_month_distance
    rw [filter_matchesUser_none]
    simp
  · unfold calculate_expiry_date
    rw [filter_matchesUser_none]
    simp

/-- C7 (counterexample): at a concrete record list and a null vehicle type the
engine returns the silently-coerced default results, not a precondition error
— contradicting the claim that contract-violating inputs fail fast. -/
theorem null_vehicle_type_no_error_counterexample :
    calculate_3_month_distance [⟨"alice", some 0, some 5, "Terrex"⟩] "alice" none 10 = 0 ∧
    calculate_expiry_date [⟨"alice", some 0, some 5, "Terrex"⟩] "alice" none = none := by
  constructor
  · norm_num [calculate_3_month_distance, matchesUser, List.filter]
  · norm_num [calculate_expiry_date, matchesUser, List.filter]

end Driv

namespace Driv

/-- C5 (counterexample): the team-overview filter has no lower bound on
`days_to_expiry`, so a current status that is already past expiry
(negative days) is counted as expiring soon, while the claimed predicate
(`0 <= days_to_expiry <= 14`) does not count it. -/
theorem expiring_soon_counts_negative_days :
    expiring_soon_count [⟨"YES", some (-1)⟩] = 1 ∧
    spec_expiring_soon_row ⟨"YES", some (-1)⟩ = false := by
  have hys : (strUpper "YES" == "YES") = true := by decide
  constructor
  · norm_num [expiring_soon_count, isExpiringSoonRow, hys, List.filter]
  · norm_num [spec_expiring_soon_row, hys]

/-- C5 (amended): a status row counts as expiring soon exactly when its
currency cell uppercases to YES and its `Days to Expiry` cell is numeric with
value at most 14 — there is no lower bound, so 14 is counted, 15 is not, and
negative (already expired) values are also counted. -/
theorem isExpiringSoonRow_iff :
    (∀ s : PersonnelStatus, isExpiringSoonRow s = true ↔
      strUpper s.currency_status = "YES" ∧ ∃ d, s.days_to_expiry = some d ∧ d ≤ 14) ∧
    expiring_soon_count [⟨"YES", some 14⟩] = 1 ∧
    expiring_soon_count [⟨"YES", some 15⟩] = 0 := by
  have hys : (strUpper "YES" == "YES") = true := by decide
  refine ⟨fun s => ?_, ?_, ?_⟩
  · unfold isExpiringSoonRow
    rcases hd : s.days_to_expiry with _ | d
    · simp [hd]
    · simp [hd]
  · norm_num [expiring_soon_count, isExpiringSoonRow, hys, List.filter]
  · norm_num [expiring_soon_count, isExpiringSoonRow, hys, List.filter]

/-- C4 (code bug): the `st.cache_data(ttl=1800)` cache in front of
`calculate_3_month_distance` serves a result computed at an earlier instant.
Concretely, with one 2.0 km record dated day 0, a query at day 89.99 computes
2.0 (current); a second query at day 90.01 — 28.8 minutes later, within the
TTL — is served the stale 2.0, while a fresh evaluation at that instant
returns 0, contradicting the claim that no cached result survives beyond the
instant it was computed. -/
theorem stale_cache_serves_old_result :
    (cachedDistanceCall [⟨"alice", some 0, some 2, "Terrex"⟩] [] "alice"
        (some "Terrex") (8999/100)).1 = 2 ∧
    (cachedDistanceCall [⟨"alice", some 0, some 2, "Terrex"⟩]
        ((cachedDistanceCall [⟨"alice", some 0, some 2, "Terrex"⟩] [] "alice"
          (some "Terrex") (8999/100)).2)
        "alice" (some "Terrex") (9001/100)).1 = 2 ∧
    calculate_3_month_distance [⟨"alice", some 0, some 2, "Terrex"⟩] "alice"
        (some "Terrex") (9001/100) = 0 := by
  refine ⟨?_, ?_, ?_⟩
  · norm_num [cachedDistanceCall, lookupCache, calculate_3_month_distance,
      matchesUser, recordWindowContribution, List.filter]
  · norm_num [cachedDistanceCall, lookupCache, cacheTTLdays,
      calculate_3_month_distance, matchesUser, recordWindowContribution,
      List.filter, List.find?]
  · norm_num [calculate_3_month_distance, matchesUser,
      recordWindowContribution, List.filter]

end Driv

namespace Driv

lemma fitnessStep_skip_none (now : ℚ) (s : FitnessState) (w : WorkoutRecord)
    (h : w.date = none) : fitnessStep now s w = s := by
  simp [fitnessStep, h]

lemma fitnessStep_skip_old (now : ℚ) (s : FitnessState) (w : WorkoutRecord) (d : Int)
    (h : w.date = some d) (hw : ¬ (now - 30 ≤ (d : ℚ))) : fitnessStep now s w = s := by
  simp [fitnessStep, h, hw]

lemma fitnessStep_max_window (now : ℚ) (s : FitnessState) (w : WorkoutRecord) (d : Int)
    (h : w.date = some d) (hw : now - 30 ≤ (d : ℚ)) :
    (fitnessStep now s w).max_weight_lifted =
      match w.weight with
      | some q => if 0 < q then max s.max_weight_lifted q else s.max_weight_lifted
      | none => s.max_weight_lifted := by
  rcases hq : w.weight with _ | q
  · rcases hv : s.weightVar with _ | wv <;>
      simp [fitnessStep, h, hw, hq, hv, apply_ite FitnessState.max_weight_lifted]
  · by_cases hpos : 0 < q <;>
      simp [fitnessStep, h, hw, hq, hpos, apply_ite FitnessState.max_weight_lifted]

lemma windowedPosWeights_cons_nodate (now : ℚ) (w : WorkoutRecord) (t : List WorkoutRecord)
    (h : w.date = none) : windowedPosWeights now (w :: t) = windowedPosWeights now t := by
  simp [windowedPosWeights, List.filterMap_cons, h]

lemma windowedPosWeights_cons_old (now : ℚ) (w : WorkoutRecord) (t : List WorkoutRecord)
    (d : Int) (h : w.date = some d) (hw : ¬ (now - 30 ≤ (d : ℚ))) :
    windowedPosWeights now (w :: t) = windowedPosWeights now t := by
  have hw2 : ¬ (now ≤ (d : ℚ) + 30) := fun hc => hw (by linarith)
  rcases hq : w.weight with _ | q
  · simp [windowedPosWeights, List.filterMap_cons, h, hq]
  · simp [windowedPosWeights, List.filterMap_cons, h, hq, hw2]

lemma windowedPosWeights_cons_noweight (now : ℚ) (w : WorkoutRecord)
    (t : List WorkoutRecord) (d : Int) (h : w.date = some d) (hq : w.weight = none) :
    windowedPosWeights now (w :: t) = windowedPosWeights now t := by
  simp [windowedPosWeights, List.filterMap_cons, h, hq]

lemma windowedPosWeights_cons_nonpos (now : ℚ) (w : WorkoutRecord)
    (t : List WorkoutRecord) (d : Int) (q : ℚ) (h : w.date = some d)
    (hq : w.weight = some q) (hpos : ¬ 0 < q) :
    windowedPosWeights now (w :: t) = windowedPosWeights now t := by
  simp [windowedPosWeights, List.filterMap_cons, h, hq, hpos]

lemma windowedPosWeights_cons_keep (now : ℚ) (w : WorkoutRecord)
    (t : List WorkoutRecord) (d : Int) (q : ℚ) (h : w.date = some d)
    (hw : now - 30 ≤ (d : ℚ)) (hq : w.weight = some q) (hpos : 0 < q) :
    windowedPosWeights now (w :: t) = q :: windowedPosWeights now t := by
  have hw2 : now ≤ (d : ℚ) + 30 := by linarith
  simp [windowedPosWeights, List.filterMap_cons, h, hq, hw2, hpos]

lemma foldl_max_weight (now : ℚ) (l : List WorkoutRecord) : ∀ s : FitnessState,
    (l.foldl (fitnessStep now) s).max_weight_lifted =
      (windowedPosWeights now l).foldl max s.max_weight_lifted := by
  induction l with
  | nil => intro s; simp [windowedPosWeights]
  | cons w t ih =>
    intro s
    rw [List.foldl_cons, ih]
    rcases hd : w.date with _ | d
    · rw [fitnessStep_skip_none now s w hd, windowedPosWeights_cons_nodate now w t hd]
    · by_cases hw : now - 30 ≤ (d : ℚ)
      · rcases hq : w.weight with _ | q
        · rw [fitnessStep_max_window now s w d hd hw,
            windowedPosWeights_cons_noweight now w t d hd hq]
          simp [hq]
        · by_cases hpos : 0 < q
          · rw [fitnessStep_max_window now s w d hd hw,
              windowedPosWeights_cons_keep now w t d q hd hw hq hpos]
            simp [hq, hpos]
          · rw [fitnessStep_max_window now s w d hd hw,
              windowedPosWeights_cons_nonpos now w t d q hd hq hpos]
            simp [hq, hpos]
      · rw [fitnessStep_skip_old now s w d hd hw,
          windowedPosWeights_cons_old now w t d hd hw]

end Driv

namespace Driv

lemma fitnessStep_prs_window (now : ℚ) (s : FitnessState) (w : WorkoutRecord)
    (d : Int) (q : ℚ) (h : w.date = some d) (hw : now - 30 ≤ (d : ℚ))
    (hq : w.weight = some q) :
    (fitnessStep now s w).recent_prs =
      s.recent_prs +
        (if (if 0 < q then max s.max_weight_lifted q else s.max_weight_lifted) * (19/20) < q
         then 1 else 0) := by
  by_cases hpos : 0 < q
  · by_cases hpr : (max s.max_weight_lifted q) * (19/20) < q <;>
      simp [fitnessStep, h, hw, hq, hpos, hpr, apply_ite FitnessState.recent_prs]
  · by_cases hpr : s.max_weight_lifted * (19/20) < q <;>
      simp [fitnessStep, h, hw, hq, hpos, hpr, apply_ite FitnessState.recent_prs]

lemma prCountAux_cons_nodate (now : ℚ) (m : ℚ) (w : WorkoutRecord)
    (t : List WorkoutRecord) (h : w.date = none) :
    prCountAux now m (w :: t) = prCountAux now m t := by
  simp [prCountAux, h]

lemma prCountAux_cons_old (now : ℚ) (m : ℚ) (w : WorkoutRecord)
    (t : List WorkoutRecord) (d : Int) (h : w.date = some d)
    (hw : ¬ (now - 30 ≤ (d : ℚ))) :
    prCountAux now m (w :: t) = prCountAux now m t := by
  have hw2 : ¬ (now ≤ (d : ℚ) + 30) := fun hc => hw (by linarith)
  simp [prCountAux, h, hw2]

lemma prCountAux_cons_window (now : ℚ) (m : ℚ) (w : WorkoutRecord)
    (t : List WorkoutRecord) (d : Int) (q : ℚ) (h : w.date = some d)
    (hw : now - 30 ≤ (d : ℚ)) (hq : w.weight = some q) :
    prCountAux now m (w :: t) =
      (if (if 0 < q then max m q else m) * (19/20) < q then 1 else 0) +
        prCountAux now (if 0 < q then max m q else m) t := by
  have hw2 : now ≤ (d : ℚ) + 30 := by linarith
  simp [prCountAux, h, hw2, hq]

lemma foldl_prs (now : ℚ) (l : List WorkoutRecord) : ∀ s : FitnessState,
    (∀ w ∈ l, w.weight.isSome = true) →
    (l.foldl (fitnessStep now) s).recent_prs =
      s.recent_prs + prCountAux now s.max_weight_lifted l := by
  induction l with
  | nil => intro s _; simp [prCountAux]
  | cons w t ih =>
    intro s hwf
    have hwq := hwf w (List.mem_cons_self w t)
    have hwf2 : ∀ x ∈ t, x.weight.isSome = true :=
      fun x hx => hwf x (List.mem_cons_of_mem w hx)
    rcases hq : w.weight with _ | q
    · rw [hq] at hwq
      cases hwq
    rcases hd : w.date with _ | d
    · rw [List.foldl_cons, fitnessStep_skip_none now s w hd, ih s hwf2,
        prCountAux_cons_nodate now _ w t hd]
    · by_cases hw : now - 30 ≤ (d : ℚ)
      · rw [List.foldl_cons, ih _ hwf2, fitnessStep_prs_window now s w d q hd hw hq,
          fitnessStep_max_window now s w d hd hw, prCountAux_cons_window now _ w t d q hd hw hq,
          hq]
        simp [Nat.add_assoc]
      · rw [List.foldl_cons, fitnessStep_skip_old now s w d hd hw, ih s hwf2,
          prCountAux_cons_old now _ w t d hd hw]

/-- C8 (amended): `max_weight_lifted` is the running maximum, over 0, of the
positive parsed weights of the records inside the trailing 30-day window — not
of all-time records: records outside the window never update it. -/
theorem max_weight_lifted_windowed (l : List WorkoutRecord) (now : ℚ) :
    (fitnessStats l now).max_weight_lifted = (windowedPosWeights now l).foldl max 0 := by
  unfold fitnessStats
  rw [foldl_max_weight]
  rfl

/-- C8 (counterexample): a 100 kg workout 100 days old and a 50 kg workout 5
days old yield `max_weight_lifted = 50`, while the claimed all-time running
maximum is 100 — the code restricts the maximum to the 30-day window. -/
theorem max_weight_lifted_not_all_time :
    (fitnessStats [⟨some 100, some 100⟩, ⟨some 195, some 50⟩] 200).max_weight_lifted = 50 ∧
    spec_max_weight_all_time [⟨some 100, some 100⟩, ⟨some 195, some 50⟩] = 100 := by
  constructor
  · norm_num [fitnessStats, fitnessStep, initFitnessState, List.foldl]
  · norm_num [spec_max_weight_all_time, List.foldl]

/-- C9 (amended): with every weight cell parseable, `recent_prs` counts exactly
the records inside the trailing 30-day window whose weight strictly exceeds 95
percent of the running maximum of positive windowed weights (the maximum
updated with the record itself first), walked in sheet order. -/
theorem recent_prs_windowed_running_max (l : List WorkoutRecord) (now : ℚ)
    (hwf : ∀ w ∈ l, w.weight.isSome = true) :
    (fitnessStats l now).recent_prs = prCountAux now 0 l := by
  unfold fitnessStats
  rw [foldl_prs now l initFitnessState hwf]
  simp [initFitnessState]

/-- Witness for the amended C9 theorem: two windowed workouts of 100 kg and
97 kg give two personal records under both the code and the characterization. -/
theorem recent_prs_windowed_running_max_witness :
    (fitnessStats [⟨some 195, some 100⟩, ⟨some 196, some 97⟩] 200).recent_prs =
      prCountAux 200 0 [⟨some 195, some 100⟩, ⟨some 196, some 97⟩] ∧
    prCountAux 200 0 [⟨some 195, some 100⟩, ⟨some 196, some 97⟩] = 2 := by
  constructor
  · exact recent_prs_windowed_running_max _ _ (by intro w hw; fin_cases hw <;> rfl)
  · norm_num [prCountAux]

/-- C9 (counterexample): two 200 kg workouts 100 days old followed by a 96 kg
workout 5 days old: the code counts 1 personal record (the windowed running
maximum forgets the old 200 kg sessions), the claimed all-time-so-far flagging
counts 2 flagged records (or 0 windowed flagged records under the
recent-only reading) — the code agrees with neither. -/
theorem recent_prs_not_all_time_pr_count :
    (fitnessStats [⟨some 100, some 200⟩, ⟨some 101, some 200⟩, ⟨some 195, some 96⟩]
        200).recent_prs = 1 ∧
    spec_pr_count_all_time 0
        [⟨some 100, some 200⟩, ⟨some 101, some 200⟩, ⟨some 195, some 96⟩] = 2 ∧
    spec_pr_count_recent 200 0
        [⟨some 100, some 200⟩, ⟨some 101, some 200⟩, ⟨some 195, some 96⟩] = 0 := by
  refine ⟨?_, ?_, ?_⟩ <;>
    norm_num [fitnessStats, fitnessStep, initFitnessState, spec_pr_count_all_time,
      spec_pr_count_recent, prCountAux]

end Driv

namespace Driv

lemma distSum_cons (r : MileageRecord) (l : List MileageRecord) :
    distSum (r :: l) = r.distanceDriven.getD 0 + distSum l := by
  simp [distSum]

lemma cumAt_cons_zero (r : MileageRecord) (t : List MileageRecord) :
    cumAt (r :: t) 0 = r.distanceDriven.getD 0 := by
  simp [cumAt, distSum]

lemma cumAt_cons_succ (r : MileageRecord) (t : List MileageRecord) (n : Nat) :
    cumAt (r :: t) (n + 1) = r.distanceDriven.getD 0 + cumAt t n := by
  simp [cumAt, distSum, List.take_succ_cons]

lemma findAnchor_never : ∀ (l : List MileageRecord) (c : ℚ),
    (∀ n : Nat, c + distSum (l.take n) < 2) → findAnchor c l = none := by
  intro l
  induction l with
  | nil => intro c _; rfl
  | cons r t ih =>
    intro c h
    have h1 := h 1
    rw [List.take_succ_cons, List.take_zero, distSum_cons] at h1
    simp only [distSum, List.map_nil, List.sum_nil, add_zero] at h1
    rcases hq : r.distanceDriven with _ | q
    · simp only [findAnchor, hq]
      apply ih
      intro n
      have hn := h (n + 1)
      rw [List.take_succ_cons, distSum_cons, hq] at hn
      simpa using hn
    · rw [hq] at h1
      simp only [Option.getD_some] at h1
      have hc : ¬ (2 ≤ c + q) := by linarith
      simp only [findAnchor, hq, hc, if_false]
      apply ih
      intro n
      have hn := h (n + 1)
      rw [List.take_succ_cons, distSum_cons, hq] at hn
      simp only [Option.getD_some] at hn
      linarith

lemma findAnchor_first_cross : ∀ (l : List MileageRecord) (c : ℚ) (i : Nat)
    (_ : ∀ r ∈ l, wfRec r) (hi : i < l.length),
    2 ≤ c + cumAt l i → (∀ j, j < i → c + cumAt l j < 2) →
    findAnchor c l = (l.get ⟨i, hi⟩).dateOfDrive := by
  intro l
  induction l with
  | nil =>
    intro c i _ hi
    cases hi
  | cons r t ih =>
    intro c i hwf hi hcross hfirst
    obtain ⟨hdr, hqr⟩ := hwf r (List.mem_cons_self r t)
    rcases hq : r.distanceDriven with _ | q
    · rw [hq] at hqr
      cases hqr
    rcases hd : r.dateOfDrive with _ | dd
    · rw [hd] at hdr
      cases hdr
    cases i with
    | zero =>
      have hge : 2 ≤ c + q := by
        have := hcross
        rw [cumAt_cons_zero, hq] at this
        simpa using this
      simp [findAnchor, hq, hd, hge]
    | succ i =>
      have h0 : c + q < 2 := by
        have := hfirst 0 (Nat.succ_pos i)
        rw [cumAt_cons_zero, hq] at this
        simpa using this
      have hc2 : ¬ (2 ≤ c + q) := by linarith
      have hit : i < t.length := by simpa using hi
      simp only [findAnchor, hq, hc2, if_false]
      rw [ih (c + q) i (fun x hx => hwf x (List.mem_cons_of_mem r hx)) hit ?hcr ?hfi]
      · simp
      case hcr =>
        have := hcross
        rw [cumAt_cons_succ, hq] at this
        simp only [Option.getD_some] at this
        linarith
      case hfi =>
        intro j hj
        have := hfirst (j + 1) (Nat.succ_lt_succ hj)
        rw [cumAt_cons_succ, hq] at this
        simp only [Option.getD_some] at this
        linarith

end Driv

namespace Driv

/-- C3: when the filtered record set is empty, or the descending cumulative
sum stays below the 2.0 threshold at every point of the walk, the expiry
computation returns the sentinel `none` (the embedding of `"N/A"`), which is
distinguishable from every real date; the empty case is an ordinary result,
with window distance 0 and not-current status, never an error. -/
theorem calculate_expiry_date_no_anchor (records : List MileageRecord)
    (username : String) (vehicle_type : Option String) (now : ℚ)
    (h : ∀ n : Nat,
      distSum ((sortByDateDesc (records.filter (matchesUser username vehicle_type))).take n) < 2) :
    calculate_expiry_date records username vehicle_type = none ∧
    (∀ d : Int, calculate_expiry_date records username vehicle_type ≠ some d) ∧
    (records.filter (matchesUser username vehicle_type) = [] →
      calculate_3_month_distance records username vehicle_type now = 0 ∧
      is_current (calculate_3_month_distance records username vehicle_type now) = false) := by
  have hmain : calculate_expiry_date records username vehicle_type = none := by
    unfold calculate_expiry_date
    by_cases he : (records.filter (matchesUser username vehicle_type)).isEmpty = true
    · simp [he]
    · simp only [he, if_false]
      rw [findAnchor_never _ 0 (fun n => by have := h n; linarith)]
      rfl
  refine ⟨hmain, fun d hd => ?_, fun hemp => ?_⟩
  · rw [hmain] at hd
    simp at hd
  have hzero : calculate_3_month_distance records username vehicle_type now = 0 := by
    unfold calculate_3_month_distance
    simp [hemp]
  refine ⟨hzero, ?_⟩
  rw [hzero]
  norm_num [is_current]

/-- Witness for the C3 theorem: a single half-kilometre record never reaches
the threshold, so the expiry date is the sentinel. -/
theorem calculate_expiry_date_no_anchor_witness :
    calculate_expiry_date [⟨"u", some 10, some (1/2), "T"⟩] "u" (some "T") = none := by
  have hs : sortByDateDesc ([⟨"u", some 10, some (1/2), "T"⟩].filter
      (matchesUser "u" (some "T"))) = [⟨"u", some 10, some (1/2), "T"⟩] := by
    norm_num [sortByDateDesc, List.insertionSort, List.orderedInsert, matchesUser, List.filter]
  refine (calculate_expiry_date_no_anchor [⟨"u", some 10, some (1/2), "T"⟩] "u"
    (some "T") 0 ?_).1
  intro n
  rw [hs]
  rcases n with _ | n
  · norm_num [distSum]
  · rw [List.take_succ_cons, List.take_nil]
    norm_num [distSum]

/-- C1: with well-formed records all matching the queried user and vehicle
type, whenever position `i` of the date-descending sorted sequence is the
first whose cumulative distance reaches the 2.0 threshold (non-strict
comparison), the expiry computation returns that anchor record's date plus 90
days. -/
theorem calculate_expiry_date_first_crossing (records : List MileageRecord)
    (username vt : String) (i : Nat)
    (hmatch : ∀ r ∈ records, matchesUser username (some vt) r = true)
    (hwf : ∀ r ∈ records, wfRec r)
    (hi : i < (sortByDateDesc records).length)
    (hcross : 2 ≤ cumAt (sortByDateDesc records) i)
    (hfirst : ∀ j, j < i → cumAt (sortByDateDesc records) j < 2) :
    calculate_expiry_date records username (some vt) =
      ((sortByDateDesc records)[i]?.bind MileageRecord.dateOfDrive).map
        (fun d => d + 90) := by
  have hfe : records.filter (matchesUser username (some vt)) = records :=
    List.filter_eq_self.mpr hmatch
  have hwfs : ∀ r ∈ sortByDateDesc records, wfRec r := fun r hr =>
    hwf r ((List.perm_insertionSort byDateDesc records).mem_iff.mp hr)
  have hne : records ≠ [] := by
    intro h0
    rw [h0] at hi
    simp [sortByDateDesc] at hi
  have hie : records.isEmpty = false := by
    simpa [List.isEmpty_iff] using hne
  have hanchor := findAnchor_first_cross (sortByDateDesc records) 0 i hwfs hi
    (by simpa using hcross) (fun j hj => by simpa using hfirst j hj)
  obtain ⟨dd, hdd⟩ := Option.isSome_iff_exists.mp
    (hwfs _ (List.get_mem (sortByDateDesc records) i hi)).1
  have hge : (sortByDateDesc records)[i]? =
      some ((sortByDateDesc records).get ⟨i, hi⟩) := by
    rw [List.getElem?_eq_getElem hi]
    rfl
  unfold calculate_expiry_date
  rw [hfe]
  simp only [hie, Bool.false_eq_true, if_false]
  rw [hanchor, hge, Option.some_bind, hdd]
  rfl

/-- Witness for the C1 theorem, at the record collection named by the claim
with T = 100: records (T-5, 0.5 km), (T-20, 1.0 km), (T-40, 3.0 km) anchor on
T-40 and expire at T+50 = 150. -/
theorem calculate_expiry_date_first_crossing_witness :
    calculate_expiry_date
      [⟨"u", some 95, some (1/2), "T"⟩, ⟨"u", some 80, some 1, "T"⟩,
       ⟨"u", some 60, some 3, "T"⟩] "u" (some "T") = some 150 := by
  have hs : sortByDateDesc
      [⟨"u", some 95, some (1/2), "T"⟩, ⟨"u", some 80, some 1, "T"⟩,
       ⟨"u", some 60, some 3, "T"⟩] =
      [⟨"u", some 95, some (1/2), "T"⟩, ⟨"u", some 80, some 1, "T"⟩,
       ⟨"u", some 60, some 3, "T"⟩] := by
    norm_num [sortByDateDesc, List.insertionSort, List.orderedInsert, byDateDesc, dateGeB]
  have hlen : (2 : Nat) < (sortByDateDesc
      [⟨"u", some 95, some (1/2), "T"⟩, ⟨"u", some 80, some 1, "T"⟩,
       ⟨"u", some 60, some 3, "T"⟩]).length := by
    rw [hs]
    norm_num
  have h := calculate_expiry_date_first_crossing
    [⟨"u", some 95, some (1/2), "T"⟩, ⟨"u", some 80, some 1, "T"⟩,
     ⟨"u", some 60, some 3, "T"⟩] "u" "T" 2
    (by intro r hr; fin_cases hr <;> rfl)
    (by intro r hr; fin_cases hr <;> exact ⟨rfl, rfl⟩)
    hlen
    (by rw [hs]; norm_num [cumAt, distSum])
    (by
      intro j hj
      interval_cases j <;> rw [hs] <;> norm_num [cumAt, distSum])
  rw [h, hs]
  rfl

end Driv

namespace Driv

lemma wf_date_some (r : MileageRecord) (h : wfRec r) :
    r.dateOfDrive = some (r.dateOfDrive.getD 0) := by
  obtain ⟨h1, _⟩ := h
  rcases hd : r.dateOfDrive with _ | d
  · rw [hd] at h1
    cases h1
  · rfl

lemma wf_dist_some (r : MileageRecord) (h : wfRec r) :
    r.distanceDriven = some (r.distanceDriven.getD 0) := by
  obtain ⟨_, h2⟩ := h
  rcases hd : r.distanceDriven with _ | q
  · rw [hd] at h2
    cases h2
  · rfl

lemma byDateDesc_le (a b : MileageRecord) (ha : wfRec a) (hb : wfRec b)
    (h : byDateDesc a b) :
    b.dateOfDrive.getD 0 ≤ a.dateOfDrive.getD 0 := by
  unfold byDateDesc dateGeB at h
  rw [wf_date_some a ha, wf_date_some b hb] at h
  simpa using h

lemma distSum_nonneg (l : List MileageRecord)
    (h : ∀ r ∈ l, 0 ≤ r.distanceDriven.getD 0) : 0 ≤ distSum l := by
  induction l with
  | nil => simp [distSum]
  | cons r t ih =>
    rw [distSum_cons]
    have := h r (List.mem_cons_self r t)
    have ht := ih (fun x hx => h x (List.mem_cons_of_mem r hx))
    linarith

lemma distSum_perm (l l2 : List MileageRecord) (h : l.Perm l2) :
    distSum l = distSum l2 := by
  unfold distSum
  exact (h.map (fun r => r.distanceDriven.getD 0)).sum_eq

/-- Sorted lists whose dates are bounded by `D` decompose into the date-`D`
group followed by the strictly older records. -/
lemma sorted_group_decomp (D : Int) : ∀ (l : List MileageRecord),
    l.Sorted byDateDesc → (∀ x ∈ l, wfRec x) →
    (∀ x ∈ l, x.dateOfDrive.getD 0 ≤ D) →
    l = l.filter (fun x => x.dateOfDrive == some D) ++
        l.filter (fun x => !(x.dateOfDrive == some D)) := by
  intro l
  induction l with
  | nil => intro _ _ _; rfl
  | cons r t ih =>
    intro hs hwf hle
    have hwr := hwf r (List.mem_cons_self r t)
    by_cases hr : (r.dateOfDrive == some D) = true
    · have ht := ih hs.of_cons (fun x hx => hwf x (List.mem_cons_of_mem r hx))
        (fun x hx => hle x (List.mem_cons_of_mem r hx))
      rw [List.filter_cons, List.filter_cons]
      simp only [hr, Bool.not_true, Bool.false_eq_true, if_true, if_false]
      rw [List.cons_append, ← ht]
    · have hrD : r.dateOfDrive.getD 0 < D := by
        rcases lt_or_eq_of_le (hle r (List.mem_cons_self r t)) with h2 | h2
        · exact h2
        · exact absurd (by rw [wf_date_some r hwr, h2] : r.dateOfDrive = some D)
            (by simpa using hr)
      have hnone : ∀ x ∈ r :: t, ¬ ((x.dateOfDrive == some D) = true) := by
        intro x hx hc
        have hxw := hwf x hx
        have hxle : x.dateOfDrive.getD 0 ≤ r.dateOfDrive.getD 0 := by
          rcases List.mem_cons.mp hx with h2 | h2
          · exact le_of_eq (by rw [h2])
          · exact byDateDesc_le r x hwr hxw ((List.sorted_cons.mp hs).1 x h2)
        have hxD : x.dateOfDrive.getD 0 = D := by
          rw [wf_date_some x hxw] at hc
          simpa using hc
        omega
      rw [List.filter_eq_nil_iff.mpr hnone,
        List.filter_eq_self.mpr (fun x hx => by simpa using hnone x hx)]
      rfl

end Driv

namespace Driv

lemma findAnchor_cons_anchor (c : ℚ) (r : MileageRecord) (rs : List MileageRecord)
    (q : ℚ) (d : Int) (hq : r.distanceDriven = some q) (hd : r.dateOfDrive = some d)
    (h2 : 2 ≤ c + q) : findAnchor c (r :: rs) = some d := by
  simp [findAnchor, hq, hd, h2]

lemma findAnchor_cons_continue (c : ℚ) (r : MileageRecord) (rs : List MileageRecord)
    (q : ℚ) (hq : r.distanceDriven = some q) (h2 : ¬ (2 ≤ c + q)) :
    findAnchor c (r :: rs) = findAnchor (c + q) rs := by
  simp [findAnchor, hq, h2]

lemma findAnchor_group (D : Int) : ∀ (g : List MileageRecord)
    (t : List MileageRecord) (c : ℚ),
    (∀ x ∈ g, x.dateOfDrive = some D) → (∀ x ∈ g, wfRec x) →
    (∀ x ∈ g, 0 ≤ x.distanceDriven.getD 0) → c < 2 →
    findAnchor c (g ++ t) =
      if 2 ≤ c + distSum g then some D else findAnchor (c + distSum g) t := by
  intro g
  induction g with
  | nil =>
    intro t c _ _ _ hc
    have hns : ¬ (2 ≤ c + distSum []) := by
      simp only [distSum, List.map_nil, List.sum_nil, add_zero]
      linarith
    rw [if_neg hns]
    simp [distSum]
  | cons r g ih =>
    intro t c hD hwf hnn hc
    have hdr := hD r (List.mem_cons_self r g)
    have hq := wf_dist_some r (hwf r (List.mem_cons_self r g))
    have hnnr := hnn r (List.mem_cons_self r g)
    have hnng : 0 ≤ distSum g :=
      distSum_nonneg g (fun x hx => hnn x (List.mem_cons_of_mem r hx))
    rw [List.cons_append, distSum_cons]
    by_cases h2 : 2 ≤ c + r.distanceDriven.getD 0
    · rw [findAnchor_cons_anchor c r (g ++ t) _ D hq hdr h2,
        if_pos (by linarith)]
    · rw [findAnchor_cons_continue c r (g ++ t) _ hq h2,
        ih t (c + r.distanceDriven.getD 0)
          (fun x hx => hD x (List.mem_cons_of_mem r hx))
          (fun x hx => hwf x (List.mem_cons_of_mem r hx))
          (fun x hx => hnn x (List.mem_cons_of_mem r hx))
          (by linarith), ← add_assoc]

lemma findAnchor_perm_of_sorted : ∀ (n : Nat) (s s2 : List MileageRecord) (c : ℚ),
    s.length ≤ n → s.Sorted byDateDesc → s2.Sorted byDateDesc → s.Perm s2 →
    (∀ r ∈ s, wfRec r) → (∀ r ∈ s, 0 ≤ r.distanceDriven.getD 0) → c < 2 →
    findAnchor c s = findAnchor c s2 := by
  intro n
  induction n with
  | zero =>
    intro s s2 c hlen _ _ hperm _ _ _
    have hs : s = [] := List.length_eq_zero.mp (Nat.le_zero.mp hlen)
    subst hs
    rw [← hperm.nil_eq]
  | succ n ih =>
    intro s s2 c hlen hs1 hs2 hperm hwf hnn hc
    rcases s with _ | ⟨r, t⟩
    · rw [← hperm.nil_eq]
    rcases s2 with _ | ⟨r2, t2⟩
    · exact absurd hperm.length_eq (by simp)
    have hwr : wfRec r := hwf r (List.mem_cons_self r t)
    have hwf2 : ∀ x ∈ r2 :: t2, wfRec x := fun x hx => hwf x (hperm.mem_iff.mpr hx)
    have hnn2 : ∀ x ∈ r2 :: t2, 0 ≤ x.distanceDriven.getD 0 :=
      fun x hx => hnn x (hperm.mem_iff.mpr hx)
    have hwr2 : wfRec r2 := hwf2 r2 (List.mem_cons_self r2 t2)
    have hmax1 : ∀ x ∈ r :: t, x.dateOfDrive.getD 0 ≤ r.dateOfDrive.getD 0 := by
      intro x hx
      rcases List.mem_cons.mp hx with h2 | h2
      · exact le_of_eq (by rw [h2])
      · exact byDateDesc_le r x hwr (hwf x hx) ((List.sorted_cons.mp hs1).1 x h2)
    have hmax2 : ∀ x ∈ r2 :: t2, x.dateOfDrive.getD 0 ≤ r2.dateOfDrive.getD 0 := by
      intro x hx
      rcases List.mem_cons.mp hx with h2 | h2
      · exact le_of_eq (by rw [h2])
      · exact byDateDesc_le r2 x hwr2 (hwf2 x hx) ((List.sorted_cons.mp hs2).1 x h2)
    have hDD : r.dateOfDrive.getD 0 = r2.dateOfDrive.getD 0 :=
      le_antisymm (hmax2 r (hperm.mem_iff.mp (List.mem_cons_self r t)))
        (hmax1 r2 (hperm.mem_iff.mpr (List.mem_cons_self r2 t2)))
    have hdec1 := sorted_group_decomp (r.dateOfDrive.getD 0) (r :: t) hs1 hwf hmax1
    have hdec2 := sorted_group_decomp (r.dateOfDrive.getD 0) (r2 :: t2) hs2 hwf2
      (fun x hx => hDD ▸ hmax2 x hx)
    have hg : ((r :: t).filter (fun x => x.dateOfDrive == some (r.dateOfDrive.getD 0))).Perm
        ((r2 :: t2).filter (fun x => x.dateOfDrive == some (r.dateOfDrive.getD 0))) :=
      hperm.filter _
    have ho : ((r :: t).filter (fun x => !(x.dateOfDrive == some (r.dateOfDrive.getD 0)))).Perm
        ((r2 :: t2).filter (fun x => !(x.dateOfDrive == some (r.dateOfDrive.getD 0)))) :=
      hperm.filter _
    have hsum := distSum_perm _ _ hg
    have hgD1 : ∀ x ∈ (r :: t).filter (fun x => x.dateOfDrive == some (r.dateOfDrive.getD 0)),
        x.dateOfDrive = some (r.dateOfDrive.getD 0) := by
      intro x hx
      have := (List.mem_filter.mp hx).2
      simpa using this
    have hgD2 : ∀ x ∈ (r2 :: t2).filter (fun x => x.dateOfDrive == some (r.dateOfDrive.getD 0)),
        x.dateOfDrive = some (r.dateOfDrive.getD 0) := by
      intro x hx
      have := (List.mem_filter.mp hx).2
      simpa using this
    have hrg : r ∈ (r :: t).filter (fun x => x.dateOfDrive == some (r.dateOfDrive.getD 0)) := by
      apply List.mem_filter.mpr
      refine ⟨List.mem_cons_self r t, ?_⟩
      rw [wf_date_some r hwr]
      simp
    conv_lhs => rw [hdec1]
    conv_rhs => rw [hdec2]
    rw [findAnchor_group _ _ _ c hgD1
        (fun x hx => hwf x (List.mem_filter.mp hx).1)
        (fun x hx => hnn x (List.mem_filter.mp hx).1) hc,
      findAnchor_group _ _ _ c hgD2
        (fun x hx => hwf2 x (List.mem_filter.mp hx).1)
        (fun x hx => hnn2 x (List.mem_filter.mp hx).1) hc,
      hsum]
    by_cases h2 : 2 ≤ c + distSum ((r2 :: t2).filter
        (fun x => x.dateOfDrive == some (r.dateOfDrive.getD 0)))
    · rw [if_pos h2, if_pos h2]
    · rw [if_neg h2, if_neg h2]
      have hlg : 1 ≤ ((r :: t).filter
          (fun x => x.dateOfDrive == some (r.dateOfDrive.getD 0))).length :=
        List.length_pos.mpr (List.ne_nil_of_mem hrg)
      have hlsplit := congrArg List.length hdec1
      rw [List.length_append] at hlsplit
      apply ih _ _ _ ?_ (List.Pairwise.filter _ hs1) (List.Pairwise.filter _ hs2) ho
        (fun x hx => hwf x (List.mem_filter.mp hx).1)
        (fun x hx => hnn x (List.mem_filter.mp hx).1)
        (by linarith)
      have hlen2 : (r :: t).length ≤ n + 1 := hlen
      simp only [List.length_cons] at hlen2 hlsplit
      omega

end Driv

namespace Driv

/-- C6: for well-formed records with non-negative distances (the spec's record
invariant), the expiry computation is invariant under every permutation of the
record collection — in particular under those that only reorder records
sharing the same date: the anchor date, and hence the expiry date, is
unchanged. -/
theorem calculate_expiry_date_perm_invariant (records records2 : List MileageRecord)
    (username : String) (vehicle_type : Option String)
    (hperm : records.Perm records2)
    (hwf : ∀ r ∈ records, wfRec r)
    (hnn : ∀ r ∈ records, 0 ≤ r.distanceDriven.getD 0) :
    calculate_expiry_date records username vehicle_type =
      calculate_expiry_date records2 username vehicle_type := by
  have hpf : (records.filter (matchesUser username vehicle_type)).Perm
      (records2.filter (matchesUser username vehicle_type)) := hperm.filter _
  have hlen := hpf.length_eq
  unfold calculate_expiry_date
  by_cases he : (records.filter (matchesUser username vehicle_type)).isEmpty = true
  · have he2 : (records2.filter (matchesUser username vehicle_type)).isEmpty = true := by
      rw [List.isEmpty_iff] at he ⊢
      rw [he] at hlen
      exact List.length_eq_zero.mp hlen.symm
    simp [he, he2]
  · have he2 : ¬ (records2.filter (matchesUser username vehicle_type)).isEmpty = true := by
      intro h2
      apply he
      rw [List.isEmpty_iff] at h2 ⊢
      rw [h2] at hlen
      exact List.length_eq_zero.mp hlen
    simp only [he, he2, if_false]
    have hsp : (sortByDateDesc (records.filter (matchesUser username vehicle_type))).Perm
        (sortByDateDesc (records2.filter (matchesUser username vehicle_type))) :=
      ((List.perm_insertionSort byDateDesc _).trans hpf).trans
        (List.perm_insertionSort byDateDesc _).symm
    have hmem : ∀ x ∈ sortByDateDesc (records.filter (matchesUser username vehicle_type)),
        x ∈ records := fun x hx =>
      (List.mem_filter.mp ((List.perm_insertionSort byDateDesc _).mem_iff.mp hx)).1
    rw [findAnchor_perm_of_sorted
      (sortByDateDesc (records.filter (matchesUser username vehicle_type))).length
      _ _ 0 le_rfl
      (List.sorted_insertionSort byDateDesc _)
      (List.sorted_insertionSort byDateDesc _)
      hsp
      (fun x hx => hwf x (hmem x hx))
      (fun x hx => hnn x (hmem x hx))
      (by norm_num)]
    rfl

/-- Witness for the C6 theorem: swapping two same-date records (1.0 km and
1.5 km, both on day 10) leaves the expiry date unchanged at day 100. -/
theorem calculate_expiry_date_perm_invariant_witness :
    calculate_expiry_date
        [⟨"u", some 10, some 1, "T"⟩, ⟨"u", some 10, some (3/2), "T"⟩] "u" (some "T") =
      calculate_expiry_date
        [⟨"u", some 10, some (3/2), "T"⟩, ⟨"u", some 10, some 1, "T"⟩] "u" (some "T") ∧
    calculate_expiry_date
        [⟨"u", some 10, some 1, "T"⟩, ⟨"u", some 10, some (3/2), "T"⟩] "u" (some "T") =
      some 100 := by
  constructor
  · exact calculate_expiry_date_perm_invariant _ _ "u" (some "T")
      (List.Perm.swap _ _ _)
      (by intro r hr; fin_cases hr <;> exact ⟨rfl, rfl⟩)
      (by intro r hr; fin_cases hr <;> norm_num)
  · norm_num [calculate_expiry_date, sortByDateDesc, List.insertionSort,
      List.orderedInsert, byDateDesc, dateGeB, findAnchor, matchesUser, List.filter]

end Driv
